import Mathlib

/-
Verification development for the planor-template social sign-in core:
the Apple and Google sign-in flows and helpers of src/lib/auth.ts, the
Zustand auth store (stores/auth_store), and the protected-routing gate
(app/_layout useProtectedRoute).  JavaScript strings are embedded as
lists of characters; the JavaScript string operations used by the code
(String.prototype.split, String.prototype.includes, URLSearchParams,
decodeURIComponent) are given executable models below.
-/

namespace Planor

/-- JavaScript strings are modelled as lists of characters. -/
abbrev JStr := List Char

/-! ## JavaScript string primitives -/

/-- First occurrence of the separator `sep` in `s`: returns the part of
`s` before the first occurrence and the part after it, or `none` when
`sep` does not occur in `s`.  Mirrors the scan that
`String.prototype.split` performs for its first piece. -/
def splitFirst (sep : JStr) : JStr → Option (JStr × JStr)
  | [] => if sep = [] then some ([], []) else none
  | c :: rest =>
    if sep.isPrefixOf (c :: rest) then some ([], (c :: rest).drop sep.length)
    else (splitFirst sep rest).map (fun p => (c :: p.1, p.2))

/-- JavaScript `String.prototype.includes(sep)` for a non-empty `sep`. -/
def occursIn (sep s : JStr) : Bool := (splitFirst sep s).isSome

/-- Fueled worker for `jsSplit`; the fuel strictly exceeds the length of
the string being split, which suffices because every found occurrence of
a non-empty separator strictly shortens the remaining suffix. -/
def jsSplitAux (sep : JStr) : Nat → JStr → List JStr
  | 0, s => [s]
  | f + 1, s =>
    match splitFirst sep s with
    | none => [s]
    | some (pre, post) => pre :: jsSplitAux sep f post

/-- JavaScript `String.prototype.split(sep)` for a non-empty separator:
the list of pieces of `s` between consecutive occurrences of `sep`.
(The code under verification never splits on the empty string.) -/
def jsSplit (sep s : JStr) : List JStr := jsSplitAux sep (s.length + 1) s

/-- Value of a hexadecimal digit character, `none` for a non-digit. -/
def hexVal (c : Char) : Option Nat :=
  if '0' ≤ c ∧ c ≤ '9' then some (c.toNat - ('0').toNat)
  else if 'A' ≤ c ∧ c ≤ 'F' then some (c.toNat - ('A').toNat + 10)
  else if 'a' ≤ c ∧ c ≤ 'f' then some (c.toNat - ('a').toNat + 10)
  else none

/-- Maximal leading run of percent escapes: consumes a prefix of the
form `%hh%hh...` (each `hh` two hex digits), returning the decoded bytes
and the unconsumed remainder.  A leading character sequence that is not
a valid escape consumes nothing. -/
def takePercentRun : JStr → List Nat × JStr
  | c :: a :: b :: rest =>
    if c = '%' then
      match hexVal a, hexVal b with
      | some hi, some lo =>
        let p := takePercentRun rest
        ((16 * hi + lo) :: p.1, p.2)
      | _, _ => ([], c :: a :: b :: rest)
    else ([], c :: a :: b :: rest)
  | s => ([], s)

/-- Whether a byte is a UTF-8 continuation byte. -/
def isCont (b : Nat) : Bool := 0x80 ≤ b ∧ b ≤ 0xBF

/-- Strict UTF-8 decoding of a byte sequence, rejecting truncated
sequences, stray continuation bytes, overlong encodings, surrogates and
out-of-range code points, as the ECMAScript URI decoding algorithm
does.  Returns `none` exactly when the bytes are not valid UTF-8. -/
def strictUtf8 : List Nat → Option JStr
  | [] => some []
  | b1 :: rest =>
    if b1 < 0x80 then (strictUtf8 rest).map (fun cs => Char.ofNat b1 :: cs)
    else if 0xC2 ≤ b1 ∧ b1 ≤ 0xDF then
      match rest with
      | b2 :: rest2 =>
        if isCont b2 then
          (strictUtf8 rest2).map (fun cs => Char.ofNat ((b1 - 0xC0) * 0x40 + (b2 - 0x80)) :: cs)
        else none
      | [] => none
    else if 0xE0 ≤ b1 ∧ b1 ≤ 0xEF then
      match rest with
      | b2 :: b3 :: rest3 =>
        let lo2 := if b1 = 0xE0 then 0xA0 else 0x80
        let hi2 := if b1 = 0xED then 0x9F else 0xBF
        if (lo2 ≤ b2 ∧ b2 ≤ hi2) ∧ isCont b3 then
          (strictUtf8 rest3).map
            (fun cs => Char.ofNat ((b1 - 0xE0) * 0x1000 + (b2 - 0x80) * 0x40 + (b3 - 0x80)) :: cs)
        else none
      | _ => none
    else if 0xF0 ≤ b1 ∧ b1 ≤ 0xF4 then
      match rest with
      | b2 :: b3 :: b4 :: rest4 =>
        let lo2 := if b1 = 0xF0 then 0x90 else 0x80
        let hi2 := if b1 = 0xF4 then 0x8F else 0xBF
        if (lo2 ≤ b2 ∧ b2 ≤ hi2) ∧ isCont b3 ∧ isCont b4 then
          (strictUtf8 rest4).map
            (fun cs =>
              Char.ofNat
                ((b1 - 0xF0) * 0x40000 + (b2 - 0x80) * 0x1000 + (b3 - 0x80) * 0x40 + (b4 - 0x80)) :: cs)
        else none
      | _ => none
    else none

/-- Fueled worker for `lenientUtf8`; every step consumes at least one
byte, so fuel exceeding the byte count suffices. -/
def lenientUtf8Aux : Nat → List Nat → JStr
  | 0, _ => []
  | f + 1, bytes =>
    match bytes with
    | [] => []
    | b1 :: rest =>
      if b1 < 0x80 then Char.ofNat b1 :: lenientUtf8Aux f rest
      else if 0xC2 ≤ b1 ∧ b1 ≤ 0xDF then
        match rest with
        | b2 :: rest2 =>
          if isCont b2 then Char.ofNat ((b1 - 0xC0) * 0x40 + (b2 - 0x80)) :: lenientUtf8Aux f rest2
          else Char.ofNat 0xFFFD :: lenientUtf8Aux f (b2 :: rest2)
        | [] => [Char.ofNat 0xFFFD]
      else if 0xE0 ≤ b1 ∧ b1 ≤ 0xEF then
        match rest with
        | b2 :: rest2 =>
          if (if b1 = 0xE0 then 0xA0 else 0x80) ≤ b2 ∧ b2 ≤ (if b1 = 0xED then 0x9F else 0xBF) then
            match rest2 with
            | b3 :: rest3 =>
              if isCont b3 then
                Char.ofNat ((b1 - 0xE0) * 0x1000 + (b2 - 0x80) * 0x40 + (b3 - 0x80)) ::
                  lenientUtf8Aux f rest3
              else Char.ofNat 0xFFFD :: lenientUtf8Aux f (b3 :: rest3)
            | [] => [Char.ofNat 0xFFFD]
          else Char.ofNat 0xFFFD :: lenientUtf8Aux f (b2 :: rest2)
        | [] => [Char.ofNat 0xFFFD]
      else if 0xF0 ≤ b1 ∧ b1 ≤ 0xF4 then
        match rest with
        | b2 :: rest2 =>
          if (if b1 = 0xF0 then 0x90 else 0x80) ≤ b2 ∧ b2 ≤ (if b1 = 0xF4 then 0x8F else 0xBF) then
            match rest2 with
            | b3 :: rest3 =>
              if isCont b3 then
                match rest3 with
                | b4 :: rest4 =>
                  if isCont b4 then
                    Char.ofNat
                      ((b1 - 0xF0) * 0x40000 + (b2 - 0x80) * 0x1000 + (b3 - 0x80) * 0x40 +
                        (b4 - 0x80)) :: lenientUtf8Aux f rest4
                  else Char.ofNat 0xFFFD :: lenientUtf8Aux f (b4 :: rest4)
                | [] => [Char.ofNat 0xFFFD]
              else Char.ofNat 0xFFFD :: lenientUtf8Aux f (b3 :: rest3)
            | [] => [Char.ofNat 0xFFFD]
          else Char.ofNat 0xFFFD :: lenientUtf8Aux f (b2 :: rest2)
        | [] => [Char.ofNat 0xFFFD]
      else Char.ofNat 0xFFFD :: lenientUtf8Aux f rest

/-- Lenient UTF-8 decoding of a byte sequence as done by the WHATWG
urlencoded parser: malformed input produces U+FFFD replacement
characters, resynchronising at the offending byte. -/
def lenientUtf8 (bytes : List Nat) : JStr := lenientUtf8Aux (bytes.length + 1) bytes

/-- Fueled worker for `formDecode`. -/
def formDecodeAux : Nat → JStr → JStr
  | 0, _ => []
  | f + 1, s =>
    match s with
    | [] => []
    | c :: rest =>
      if c = '+' then ' ' :: formDecodeAux f rest
      else if c = '%' then
        let p := takePercentRun (c :: rest)
        if p.1 = [] then '%' :: formDecodeAux f rest
        else lenientUtf8 p.1 ++ formDecodeAux f p.2
      else c :: formDecodeAux f rest

/-- The application/x-www-form-urlencoded string decoding used by
`URLSearchParams` on names and values: `+` becomes a space, runs of
valid `%hh` escapes are percent-decoded and read as UTF-8 (leniently,
with replacement characters), and invalid escapes are left verbatim. -/
def formDecode (s : JStr) : JStr := formDecodeAux (s.length + 1) s

/-- Fueled worker for `decodeURIComponentJs`. -/
def decodeURIAux : Nat → JStr → Option JStr
  | 0, _ => some []
  | f + 1, s =>
    match s with
    | [] => some []
    | c :: rest =>
      if c = '%' then
        let p := takePercentRun (c :: rest)
        if p.1 = [] then none
        else
          match strictUtf8 p.1 with
          | none => none
          | some cs => (decodeURIAux f p.2).map (fun cs2 => cs ++ cs2)
      else (decodeURIAux f rest).map (fun cs2 => c :: cs2)

/-- JavaScript `decodeURIComponent`: percent escapes are decoded
strictly (a `%` not followed by two hex digits, or escape bytes that do
not form valid UTF-8, raise `URIError`, modelled as `none`); all other
characters, including `+`, pass through unchanged. -/
def decodeURIComponentJs (s : JStr) : Option JStr := decodeURIAux (s.length + 1) s

/-- The `URLSearchParams` constructor strips a single leading question
mark from its string argument. -/
def stripQ : JStr → JStr
  | [] => []
  | c :: rest => if c = '?' then rest else c :: rest

/-- A urlencoded segment is split at its first equals sign into a name
and a value; a segment without an equals sign is a name with an empty
value. -/
def kvOfSeg (seg : JStr) : JStr × JStr :=
  match splitFirst (['=']) seg with
  | some p => p
  | none => (seg, [])

/-- The pair list backing `URLSearchParams(init)`: strip a leading
question mark, split on ampersands, skip empty segments, split each
segment at its first equals sign, and form-decode names and values. -/
def urlencodedPairs (init : JStr) : List (JStr × JStr) :=
  ((jsSplit (['&']) (stripQ init)).filter (fun seg => seg ≠ [])).map
    (fun seg => (formDecode (kvOfSeg seg).1, formDecode (kvOfSeg seg).2))

/-- `URLSearchParams(init).get(key)`: the value of the first pair whose
decoded name equals `key`, or `none` (JavaScript `null`). -/
def searchParamsGet (init key : JStr) : Option JStr :=
  ((urlencodedPairs init).find? (fun p => decide (p.1 = key))).map (fun p => p.2)

/-! ## Thrown values and collaborator outcomes -/

/-- A thrown JavaScript value as observed by the catch blocks of
src/lib/auth.ts: whether it is an `Error` instance, its `message`
(meaningful when it is an `Error`), and its optional `code` property
(read through the untyped cast in the Apple catch block). -/
structure JsError where
  isError : Bool
  message : JStr
  code : Option JStr
deriving DecidableEq

/-- The outcome of awaiting a collaborator call: a returned value or a
thrown JavaScript value. -/
inductive Outcome (α : Type) where
  | ok (a : α) : Outcome α
  | exn (e : JsError) : Outcome α
deriving DecidableEq

/-- The AuthResult shape of src/lib/auth.ts: a success flag and an
optional human-readable error message. -/
structure AuthResult where
  success : Bool
  error : Option JStr
deriving DecidableEq

/-! ## src/lib/auth.ts: Apple sign-in flow -/

/-- The final catch fallback shared by all four flow functions:
an `Error` instance surfaces its message, anything else becomes the
generic unknown-error message. -/
def defaultCatch (e : JsError) : AuthResult :=
  ⟨false, some (if e.isError = true then e.message else ("Unknown error occurred").data)⟩

/-- The catch block of `signInWithApple` (src/lib/auth.ts lines
124-147): an `Error` whose message includes the substring cancelled, or
any thrown value whose `code` property is `ERR_REQUEST_CANCELED`, is
normalized to the uniform cancellation failure; everything else falls
through to the shared fallback. -/
def appleCatch (e : JsError) : AuthResult :=
  if e.isError = true ∧ occursIn (("cancelled").data) e.message = true then
    ⟨false, some (("Sign-in was cancelled").data)⟩
  else if e.code = some (("ERR_REQUEST_CANCELED").data) then
    ⟨false, some (("Sign-in was cancelled").data)⟩
  else defaultCatch e

/-- The credential returned by `AppleAuthentication.signInAsync`: only
its `identityToken` field is consulted by the flow. -/
structure AppleCredential where
  identityToken : Option JStr
deriving DecidableEq

/-- Collaborators of `signInWithApple`, each awaited call modelled by
its outcome: the capability check, the nonce generator, the SHA-256
hash (as a function of the raw nonce), the native credential prompt (as
a function of the nonce argument it is passed), and the backend
`signInWithIdToken` exchange (as a function of the token and nonce
arguments, returning the backend error message if any). -/
structure AppleEnv where
  isAvailable : Outcome Bool
  generateNonce : Outcome JStr
  hashNonce : JStr → Outcome JStr
  signInAsync : JStr → Outcome AppleCredential
  signInWithIdToken : JStr → JStr → Outcome (Option JStr)

/-- An execution record of `signInWithApple`: the nonce argument passed
to the native credential prompt if it was invoked, the token and nonce
arguments passed to the backend exchange if it was invoked, and the
resolved AuthResult. -/
structure AppleRun where
  credentialNonce : Option JStr
  exchangeCall : Option (JStr × JStr)
  result : AuthResult
deriving DecidableEq

/-- `signInWithApple` (src/lib/auth.ts lines 75-148): capability check,
nonce pair generation, native credential prompt with the hashed nonce,
then backend exchange of the identity token with the raw nonce; every
throw is caught by `appleCatch`. -/
def signInWithApple (env : AppleEnv) : AppleRun :=
  match env.isAvailable with
  | .exn e => ⟨none, none, appleCatch e⟩
  | .ok false => ⟨none, none, ⟨false, some (("Apple Sign-In is not available on this device").data)⟩⟩
  | .ok true =>
    match env.generateNonce with
    | .exn e => ⟨none, none, appleCatch e⟩
    | .ok rawNonce =>
      match env.hashNonce rawNonce with
      | .exn e => ⟨none, none, appleCatch e⟩
      | .ok hashedNonce =>
        match env.signInAsync hashedNonce with
        | .exn e => ⟨some hashedNonce, none, appleCatch e⟩
        | .ok credential =>
          match credential.identityToken with
          | none =>
            ⟨some hashedNonce, none, ⟨false, some (("No identity token received from Apple").data)⟩⟩
          | some token =>
            match env.signInWithIdToken token rawNonce with
            | .exn e => ⟨some hashedNonce, some (token, rawNonce), appleCatch e⟩
            | .ok (some msg) => ⟨some hashedNonce, some (token, rawNonce), ⟨false, some msg⟩⟩
            | .ok none => ⟨some hashedNonce, some (token, rawNonce), ⟨true, none⟩⟩

/-! ## src/lib/auth.ts: Google sign-in flow -/

/-- Parsed outcome of the callback-URL extraction: a token pair to
install, an error description to surface, no recognisable data, or a
`URIError` thrown while percent-decoding the error description. -/
inductive ParseOutcome where
  | tokens (a b : JStr) : ParseOutcome
  | errorDesc (d : JStr) : ParseOutcome
  | noTokens : ParseOutcome
  | malformed : ParseOutcome
deriving DecidableEq

/-- The callback-URL extraction of `signInWithGoogle` (src/lib/auth.ts
lines 215-261), as a pure function of the browser callback URL: take
`url.split('#')[1]`; when that is a non-empty string, look up
`access_token` and `refresh_token` with `URLSearchParams`; when both
are non-empty strings the outcome is that token pair.  Otherwise, when
the whole URL includes `error_description=`, the error description is
`decodeURIComponent(url.split('error_description=')[1]?.split('&')[0] || '')`
(`malformed` when decoding throws, `noTokens` when it is empty);
otherwise there are no tokens. -/
def codeParseCallback (url : JStr) : ParseOutcome :=
  match
    (if (jsSplit (['#']) url).getD 1 [] ≠ [] then
      match searchParamsGet ((jsSplit (['#']) url).getD 1 []) (("access_token").data),
          searchParamsGet ((jsSplit (['#']) url).getD 1 []) (("refresh_token").data) with
      | some a, some b => if a ≠ [] ∧ b ≠ [] then some (a, b) else none
      | _, _ => none
    else none) with
  | some (a, b) => .tokens a b
  | none =>
    if occursIn (("error_description=").data) url = true then
      match
        decodeURIComponentJs
          ((jsSplit (['&']) ((jsSplit (("error_description=").data) url).getD 1 [])).getD 0 []) with
      | none => .malformed
      | some d => if d ≠ [] then .errorDesc d else .noTokens
    else .noTokens

/-- Modelled from the spec: the reference extraction algorithm the spec
mandates for the callback URL (split the URL on the hash sign, split
the fragment on ampersands into parameters, each parameter being a name
and the part after its first equals sign, then read the `access_token`,
`refresh_token` and `error_description` parameters; a token pair when
both tokens are present, else the error description when present, else
nothing). -/
def specParseCallback (url : JStr) : ParseOutcome :=
  match
    ((((jsSplit (['&']) ((jsSplit (['#']) url).getD 1 [])).map kvOfSeg).find?
        (fun p => decide (p.1 = ("access_token").data))).map (fun p => p.2)),
    ((((jsSplit (['&']) ((jsSplit (['#']) url).getD 1 [])).map kvOfSeg).find?
        (fun p => decide (p.1 = ("refresh_token").data))).map (fun p => p.2)) with
  | some a, some b => .tokens a b
  | _, _ =>
    match
      ((((jsSplit (['&']) ((jsSplit (['#']) url).getD 1 [])).map kvOfSeg).find?
          (fun p => decide (p.1 = ("error_description").data))).map (fun p => p.2)) with
    | some d => .errorDesc d
    | none => .noTokens

/-- Result of `WebBrowser.openAuthSessionAsync`: its `type` tag
(success, cancel, dismiss, or any other outcome such as locked) and, on
success, its callback `url`. -/
inductive BrowserResultType where
  | success
  | cancel
  | dismiss
  | other
deriving DecidableEq

/-- The browser-session result record consulted by the Google flow. -/
structure WebBrowserResult where
  type : BrowserResultType
  url : Option JStr
deriving DecidableEq

/-- Collaborators of `signInWithGoogle`: the backend OAuth handshake
start (its `data.url` and error message), the managed browser session
(as a function of the OAuth URL it opens), and the backend
`setSession` install (as a function of the access and refresh token
arguments, returning the backend error message if any). -/
structure GoogleEnv where
  signInWithOAuth : Outcome (Option JStr × Option JStr)
  openAuthSession : JStr → Outcome WebBrowserResult
  setSession : JStr → JStr → Outcome (Option JStr)

/-- An execution record of `signInWithGoogle`: the access and refresh
token arguments passed to the backend session install if it was
invoked, and the resolved AuthResult. -/
structure GoogleRun where
  setSessionCall : Option (JStr × JStr)
  result : AuthResult
deriving DecidableEq

/-- The modelled `URIError` raised by `decodeURIComponent` on malformed
input (an `Error` instance; the message text is engine-specific, the
common V8 text is used here). -/
def uriMalformedError : JsError := ⟨true, ("URI malformed").data, none⟩

/-- The success branch of `signInWithGoogle` (src/lib/auth.ts lines
215-261): acts on the parsed callback URL — install the token pair via
the backend (surfacing its error message on failure), or surface the
decoded error description, or fail with the generic no-tokens message;
a `URIError` from decoding escapes to the flow catch block. -/
def googleSuccess (env : GoogleEnv) (u : JStr) : GoogleRun :=
  match codeParseCallback u with
  | .tokens a b =>
    match env.setSession a b with
    | .exn e => ⟨some (a, b), defaultCatch e⟩
    | .ok (some msg) => ⟨some (a, b), ⟨false, some msg⟩⟩
    | .ok none => ⟨some (a, b), ⟨true, none⟩⟩
  | .errorDesc d => ⟨none, ⟨false, some d⟩⟩
  | .malformed => ⟨none, defaultCatch uriMalformedError⟩
  | .noTokens => ⟨none, ⟨false, some (("No authentication tokens received").data)⟩⟩

/-- `signInWithGoogle` (src/lib/auth.ts lines 180-280): start the
backend OAuth handshake (surfacing its error, or failing when no URL is
returned), open the browser session, then dispatch on the browser
result: a success with a truthy URL is parsed and acted on, cancel and
dismiss normalize to the uniform cancellation failure, and every other
outcome fails with the generic authentication-failed message; every
throw is caught by the shared fallback. -/
def signInWithGoogle (env : GoogleEnv) : GoogleRun :=
  match env.signInWithOAuth with
  | .exn e => ⟨none, defaultCatch e⟩
  | .ok (dataUrl, errMsg) =>
    match errMsg with
    | some msg => ⟨none, ⟨false, some msg⟩⟩
    | none =>
      match dataUrl with
      | none => ⟨none, ⟨false, some (("No OAuth URL returned from Supabase").data)⟩⟩
      | some oauthUrl =>
        match env.openAuthSession oauthUrl with
        | .exn e => ⟨none, defaultCatch e⟩
        | .ok r =>
          match r.type, r.url with
          | .success, some u =>
            if u ≠ [] then googleSuccess env u
            else ⟨none, ⟨false, some (("Authentication failed").data)⟩⟩
          | .success, none => ⟨none, ⟨false, some (("Authentication failed").data)⟩⟩
          | .cancel, _ => ⟨none, ⟨false, some (("Sign-in was cancelled").data)⟩⟩
          | .dismiss, _ => ⟨none, ⟨false, some (("Sign-in was cancelled").data)⟩⟩
          | .other, _ => ⟨none, ⟨false, some (("Authentication failed").data)⟩⟩

/-! ## src/lib/auth.ts: token-based Google sign-in and sign-out -/

/-- Collaborator of `signInWithGoogleToken`: the backend
`signInWithIdToken` exchange as a function of the identity token and
the optional access token, returning the backend error message if
any. -/
structure TokenEnv where
  signInWithIdToken : JStr → Option JStr → Outcome (Option JStr)

/-- `signInWithGoogleToken` (src/lib/auth.ts lines 291-319): exchange
the identity token directly with the backend, surfacing the backend
error message on failure; every throw is caught by the shared
fallback. -/
def signInWithGoogleToken (env : TokenEnv) (idToken : JStr) (accessToken : Option JStr) : AuthResult :=
  match env.signInWithIdToken idToken accessToken with
  | .exn e => defaultCatch e
  | .ok (some msg) => ⟨false, some msg⟩
  | .ok none => ⟨true, none⟩

/-- Collaborator of `signOut`: the backend sign-out call, returning the
backend error message if any. -/
structure SignOutEnv where
  signOut : Outcome (Option JStr)

/-- `signOut` (src/lib/auth.ts lines 326-346): call the backend
sign-out, surfacing the backend error message on failure; every throw
is caught by the shared fallback. -/
def signOut (env : SignOutEnv) : AuthResult :=
  match env.signOut with
  | .exn e => defaultCatch e
  | .ok (some msg) => ⟨false, some msg⟩
  | .ok none => ⟨true, none⟩

/-! ## stores/auth_store: the Zustand auth store -/

/-- The backend user profile projection consulted by the store. -/
structure User where
  id : JStr
  email : Option JStr
deriving DecidableEq

/-- The backend session: credential bundle with its owning user. -/
structure Session where
  accessToken : JStr
  refreshToken : JStr
  user : User
deriving DecidableEq

/-- The store snapshot of stores/auth_store (the AuthState type). -/
structure AuthState where
  session : Option Session
  user : Option User
  isLoading : Bool
  isAuthenticated : Bool
deriving DecidableEq

/-- The initial snapshot of the store (the object literal passed to
`create`): no session, no user, loading, not authenticated. -/
def initialState : AuthState := ⟨none, none, true, false⟩

/-- The `session?.user ?? null` projection used by every store
mutation. -/
def sessionUser (s : Option Session) : Option User := s.map (fun ss => ss.user)

/-- Collaborator of the store's `initialize`: the outcome of the
initial `supabase.auth.getSession()` fetch (a session or null, or a
throw). -/
structure InitEnv where
  getSession : Outcome (Option Session)
deriving DecidableEq

/-- The immediate effect of `initialize` on the snapshot (stores/
auth_store lines 41-68): on a successful fetch, overwrite session,
user and isAuthenticated from the fetched session and clear isLoading;
on a throw, catch it and clear only isLoading. -/
def initializeAuth (env : InitEnv) (s : AuthState) : AuthState :=
  match env.getSession with
  | .ok sess =>
    { session := sess, user := sessionUser sess, isLoading := false,
      isAuthenticated := sess.isSome }
  | .exn _ => { s with isLoading := false }

/-- The `onAuthStateChange` subscription callback installed by
`initialize`: unconditionally overwrite session, user and
isAuthenticated from the notified session (isLoading untouched). -/
def onAuthStateChange (sess : Option Session) (s : AuthState) : AuthState :=
  { s with session := sess, user := sessionUser sess, isAuthenticated := sess.isSome }

/-- The store's `setSession` action: synchronous overwrite of session,
user and isAuthenticated from the given session. -/
def setSession (sess : Option Session) (s : AuthState) : AuthState :=
  { s with session := sess, user := sessionUser sess, isAuthenticated := sess.isSome }

/-- The store's `clearAuth` action (stores/auth_store lines 78-84):
synchronous reset of session, user and isAuthenticated. -/
def clearAuth (s : AuthState) : AuthState :=
  { s with session := none, user := none, isAuthenticated := false }

/-- The snapshot consistency invariant: isAuthenticated reflects the
presence of a session, and user is exactly the current session's
user. -/
def authInvariant (s : AuthState) : Prop :=
  s.isAuthenticated = s.session.isSome ∧ s.user = sessionUser s.session

instance (s : AuthState) : Decidable (authInvariant s) := by
  unfold authInvariant; infer_instance

/-! ## app/_layout: the protected routing gate -/

/-- One evaluation of the `useProtectedRoute` effect (app/_layout lines
109-131) on a snapshot and the current segments: the list of
`router.replace` targets it issues, in order.  While loading it issues
none; otherwise an unauthenticated user outside the auth group is sent
to the login screen, an authenticated user inside the auth group is
sent to the protected entry screen, an unauthenticated user inside the
protected group is sent to the login screen, and nothing fires
otherwise. -/
def useProtectedRoute (isAuthenticated isLoading : Bool) (segments : List JStr) : List JStr :=
  if isLoading = true then []
  else if isAuthenticated = false ∧ ¬ segments.head? = some (("(auth)").data) then
    [("/(auth)/login").data]
  else if isAuthenticated = true ∧ segments.head? = some (("(auth)").data) then
    [("/(protected)").data]
  else if isAuthenticated = false ∧ segments.head? = some (("(protected)").data) then
    [("/(auth)/login").data]
  else []

/-! ## Concrete sample environments used to witness the theorems -/

/-- A concrete token-form callback URL: the literal shape
`base#access_token=A&refresh_token=B` of the deep-link callback. -/
def tokenCallbackUrl (base a b : JStr) : JStr :=
  base ++ '#' :: (("access_token=").data ++ a ++ '&' :: (("refresh_token=").data ++ b))

/-- An Apple environment on a device without Apple sign-in. -/
def appleEnvUnavailable : AppleEnv :=
  ⟨.ok false, .ok (("aa").data), fun _ => .ok (("hh").data),
    fun _ => .ok ⟨some (("tok").data)⟩, fun _ _ => .ok none⟩

/-- An Apple environment whose native prompt throws a cancellation
`Error`. -/
def appleEnvCancelled : AppleEnv :=
  ⟨.ok true, .ok (("aa").data), fun _ => .ok (("hh").data),
    fun _ => .exn ⟨true, ("The operation was cancelled by the user").data, none⟩,
    fun _ _ => .ok none⟩

/-- An Apple environment that completes the whole exchange. -/
def appleEnvHappy : AppleEnv :=
  ⟨.ok true, .ok (("aa").data), fun _ => .ok (("hh").data),
    fun _ => .ok ⟨some (("tok").data)⟩, fun _ _ => .ok none⟩

/-- A Google environment whose browser session succeeds with a concrete
token-form callback URL and whose session install succeeds. -/
def googleEnvHappy : GoogleEnv :=
  ⟨.ok (some (("https://oauth").data), none),
    fun _ => .ok ⟨.success, some (tokenCallbackUrl (("cb").data) (("a").data) (("b").data))⟩,
    fun _ _ => .ok none⟩

/-- A Google environment whose browser session is cancelled by the
user. -/
def googleEnvCancelled : GoogleEnv :=
  ⟨.ok (some (("https://oauth").data), none),
    fun _ => .ok ⟨.cancel, none⟩,
    fun _ _ => .ok none⟩

/-! ## Lemmas about the string primitives -/

theorem splitFirst_not_mem {c : Char} : ∀ {s : JStr}, c ∉ s → splitFirst ([c]) s = none := by
  intro s
  induction s with
  | nil => intro _; simp [splitFirst]
  | cons x rest ih =>
    intro h
    simp only [List.mem_cons, not_or] at h
    have hx : ([c]).isPrefixOf (x :: rest) = false := by
      simp [List.isPrefixOf]
      exact fun hcx => h.1 hcx
    simp [splitFirst, hx, ih h.2]

theorem splitFirst_app {c : Char} {a : JStr} (b : JStr) (h : c ∉ a) :
    splitFirst ([c]) (a ++ c :: b) = some (a, b) := by
  induction a with
  | nil => simp [splitFirst, List.isPrefixOf]
  | cons x rest ih =>
    simp only [List.mem_cons, not_or] at h
    have hx : ([c]).isPrefixOf (x :: (rest ++ c :: b)) = false := by
      simp [List.isPrefixOf]
      exact fun hcx => h.1 hcx
    simp [splitFirst, hx, ih h.2]

theorem splitFirst_length {sep : JStr} (hsep : sep ≠ []) :
    ∀ {s pre post : JStr}, splitFirst sep s = some (pre, post) → post.length < s.length := by
  intro s
  induction s with
  | nil =>
    intro pre post h
    rw [show splitFirst sep ([] : JStr) = if sep = [] then some ([], []) else none from rfl] at h
    rw [if_neg hsep] at h
    cases h
  | cons x rest ih =>
    intro pre post h
    simp only [splitFirst] at h
    by_cases hpre : sep.isPrefixOf (x :: rest) = true
    · rw [if_pos hpre] at h
      have hpost : post = (x :: rest).drop sep.length := by
        have := congrArg (fun o => Option.map Prod.snd o) h
        simpa using this.symm
      have h1 : 1 ≤ sep.length := List.length_pos.mpr hsep
      rw [hpost]
      simp only [List.length_drop, List.length_cons]
      omega
    · rw [if_neg hpre] at h
      cases hsf : splitFirst sep rest with
      | none => rw [hsf] at h; simp at h
      | some p =>
        rw [hsf] at h
        simp only [Option.map_some', Option.some.injEq] at h
        have hpost : post = p.2 := by
          have := congrArg Prod.snd h
          simpa using this.symm
        have hlt := @ih p.1 p.2 (by rw [hsf])
        rw [hpost]
        simp only [List.length_cons]
        omega

theorem jsSplitAux_congr {sep : JStr} (hsep : sep ≠ []) :
    ∀ (f g : Nat) (s : JStr), s.length < f → s.length < g →
      jsSplitAux sep f s = jsSplitAux sep g s := by
  intro f
  induction f with
  | zero => intro g s hf _; omega
  | succ f ih =>
    intro g s hf hg
    cases g with
    | zero => omega
    | succ g =>
      simp only [jsSplitAux]
      cases hsf : splitFirst sep s with
      | none => rfl
      | some p =>
        obtain ⟨pre, post⟩ := p
        have hlt := splitFirst_length hsep hsf
        show pre :: jsSplitAux sep f post = pre :: jsSplitAux sep g post
        rw [ih g post (by omega) (by omega)]

theorem jsSplit_not_mem {c : Char} {s : JStr} (h : c ∉ s) : jsSplit ([c]) s = [s] := by
  simp [jsSplit, jsSplitAux, splitFirst_not_mem h]

theorem jsSplit_cons {c : Char} {a : JStr} (b : JStr) (h : c ∉ a) :
    jsSplit ([c]) (a ++ c :: b) = a :: jsSplit ([c]) b := by
  unfold jsSplit
  have hlen : (a ++ c :: b).length = a.length + b.length + 1 := by
    simp only [List.length_append, List.length_cons]
    omega
  rw [hlen]
  simp only [jsSplitAux, splitFirst_app b h]
  show a :: jsSplitAux ([c]) (a.length + b.length + 1) b = a :: jsSplitAux ([c]) (b.length + 1) b
  exact congrArg _
    (@jsSplitAux_congr ([c]) (by simp) (a.length + b.length + 1) (b.length + 1) b
      (by omega) (by omega))

theorem formDecodeAux_id :
    ∀ (f : Nat) (s : JStr), s.length < f → '%' ∉ s → '+' ∉ s → formDecodeAux f s = s := by
  intro f
  induction f with
  | zero => intro s hf _ _; omega
  | succ f ih =>
    intro s hf hp hplus
    cases s with
    | nil => simp [formDecodeAux]
    | cons c rest =>
      simp only [List.mem_cons, not_or] at hp hplus
      simp only [formDecodeAux]
      rw [if_neg (fun hc => hplus.1 hc.symm), if_neg (fun hc => hp.1 hc.symm)]
      rw [ih rest (by simp only [List.length_cons] at hf; omega) hp.2 hplus.2]

theorem formDecode_id {s : JStr} (hp : '%' ∉ s) (hplus : '+' ∉ s) : formDecode s = s :=
  formDecodeAux_id _ s (by omega) hp hplus

theorem stripQ_eq {s : JStr} (h : s.head? ≠ some '?') : stripQ s = s := by
  cases s with
  | nil => rfl
  | cons c rest =>
    have hc : c ≠ '?' := by
      intro hc
      exact h (by simp [hc])
    simp [stripQ, hc]

theorem kvOfSeg_access (a : JStr) :
    kvOfSeg ((("access_token=").data) ++ a) = ((("access_token").data), a) := by
  have h : (("access_token=").data) ++ a = (("access_token").data) ++ '=' :: a := rfl
  rw [h]
  unfold kvOfSeg
  rw [splitFirst_app a (by decide)]

theorem kvOfSeg_refresh (b : JStr) :
    kvOfSeg ((("refresh_token=").data) ++ b) = ((("refresh_token").data), b) := by
  have h : (("refresh_token=").data) ++ b = (("refresh_token").data) ++ '=' :: b := rfl
  rw [h]
  unfold kvOfSeg
  rw [splitFirst_app b (by decide)]

/-- Character-level side conditions under which a parameter value
passes through the callback parsing untouched: it contains no hash
sign, no ampersand, no percent sign and no plus sign. -/
def plainValue (s : JStr) : Prop := '#' ∉ s ∧ '&' ∉ s ∧ '%' ∉ s ∧ '+' ∉ s

instance (s : JStr) : Decidable (plainValue s) := by
  unfold plainValue; infer_instance

theorem urlencodedPairs_tokenFrag {a b : JStr} (ha : plainValue a) (hb : plainValue b) :
    urlencodedPairs
        ((("access_token=").data) ++ a ++ '&' :: ((("refresh_token=").data) ++ b)) =
      [((("access_token").data), a), ((("refresh_token").data), b)] := by
  obtain ⟨-, ha2, ha3, ha4⟩ := ha
  obtain ⟨-, hb2, hb3, hb4⟩ := hb
  have hassoc :
      (("access_token=").data) ++ a ++ '&' :: ((("refresh_token=").data) ++ b) =
        ((("access_token=").data) ++ a) ++ '&' :: ((("refresh_token=").data) ++ b) := by
    simp [List.append_assoc]
  rw [hassoc]
  have hq : (((("access_token=").data) ++ a) ++ '&' :: ((("refresh_token=").data) ++ b)).head? ≠
      some '?' := by
    simp [List.head?_append]
  have hamp1 : '&' ∉ (("access_token=").data) ++ a := by
    simp only [List.mem_append, not_or]
    exact ⟨by decide, ha2⟩
  have hamp2 : '&' ∉ (("refresh_token=").data) ++ b := by
    simp only [List.mem_append, not_or]
    exact ⟨by decide, hb2⟩
  unfold urlencodedPairs
  rw [stripQ_eq hq, jsSplit_cons _ hamp1, jsSplit_not_mem hamp2]
  rw [List.filter_cons_of_pos (by simp), List.filter_cons_of_pos (by simp), List.filter_nil]
  rw [List.map_cons, List.map_cons, List.map_nil, kvOfSeg_access, kvOfSeg_refresh]
  have hk1 : formDecode (("access_token").data) = ("access_token").data := by decide
  have hk2 : formDecode (("refresh_token").data) = ("refresh_token").data := by decide
  simp [formDecode_id ha3 ha4, formDecode_id hb3 hb4, hk1, hk2]

theorem searchParamsGet_tokenFrag {a b : JStr} (ha : plainValue a) (hb : plainValue b) :
    searchParamsGet ((("access_token=").data) ++ a ++ '&' :: ((("refresh_token=").data) ++ b))
        (("access_token").data) = some a ∧
      searchParamsGet ((("access_token=").data) ++ a ++ '&' :: ((("refresh_token=").data) ++ b))
        (("refresh_token").data) = some b := by
  unfold searchParamsGet
  rw [urlencodedPairs_tokenFrag ha hb]
  constructor
  · simp [List.find?]
  · simp [List.find?]

theorem tokenFrag_no_hash {a b : JStr} (ha : plainValue a) (hb : plainValue b) :
    '#' ∉ (("access_token=").data) ++ a ++ '&' :: ((("refresh_token=").data) ++ b) := by
  intro hmem
  rcases List.mem_append.mp hmem with h | h
  · rcases List.mem_append.mp h with h | h
    · exact absurd h (by decide)
    · exact ha.1 h
  rcases List.mem_cons.mp h with h | h
  · exact absurd h (by decide)
  rcases List.mem_append.mp h with h | h
  · exact absurd h (by decide)
  · exact hb.1 h

theorem codeParse_token_form {base a b : JStr} (hbase : '#' ∉ base)
    (ha : plainValue a) (hb : plainValue b) (hane : a ≠ []) (hbne : b ≠ []) :
    codeParseCallback (tokenCallbackUrl base a b) = .tokens a b := by
  have hfrag := tokenFrag_no_hash ha hb
  have hsp := searchParamsGet_tokenFrag ha hb
  have hne : (("access_token=").data) ++ a ++ '&' :: ((("refresh_token=").data) ++ b) ≠ [] := by
    simp
  unfold tokenCallbackUrl codeParseCallback
  rw [jsSplit_cons _ hbase, jsSplit_not_mem hfrag, List.getD_cons_succ, List.getD_cons_zero,
    if_pos hne, hsp.1, hsp.2]
  simp [hane, hbne]

theorem specParse_token_form {base a b : JStr} (hbase : '#' ∉ base)
    (ha : plainValue a) (hb : plainValue b) :
    specParseCallback (tokenCallbackUrl base a b) = .tokens a b := by
  have hfrag := tokenFrag_no_hash ha hb
  have hamp1 : '&' ∉ (("access_token=").data) ++ a := by
    intro hmem
    rcases List.mem_append.mp hmem with h | h
    · exact absurd h (by decide)
    · exact ha.2.1 h
  have hamp2 : '&' ∉ (("refresh_token=").data) ++ b := by
    intro hmem
    rcases List.mem_append.mp hmem with h | h
    · exact absurd h (by decide)
    · exact hb.2.1 h
  unfold tokenCallbackUrl specParseCallback
  rw [jsSplit_cons _ hbase, jsSplit_not_mem hfrag, List.getD_cons_succ, List.getD_cons_zero,
    jsSplit_cons _ hamp1, jsSplit_not_mem hamp2]
  rw [List.map_cons, List.map_cons, List.map_nil, kvOfSeg_access, kvOfSeg_refresh]
  simp [List.find?]

/-! ## Totality of the flow functions -/

theorem defaultCatch_failure (e : JsError) :
    (defaultCatch e).success = false ∧ ∃ m, (defaultCatch e).error = some m :=
  ⟨rfl, _, rfl⟩

theorem appleCatch_failure (e : JsError) :
    (appleCatch e).success = false ∧ ∃ m, (appleCatch e).error = some m := by
  unfold appleCatch
  split
  · exact ⟨rfl, _, rfl⟩
  split
  · exact ⟨rfl, _, rfl⟩
  · exact defaultCatch_failure e

theorem signInWithApple_total (env : AppleEnv) :
    (signInWithApple env).result.success = true ∨
      ((signInWithApple env).result.success = false ∧
        ∃ m, (signInWithApple env).result.error = some m) := by
  obtain ⟨avail, gen, hashf, signf, exchf⟩ := env
  unfold signInWithApple
  rcases avail with b | e
  · cases b with
    | false => exact Or.inr ⟨rfl, _, rfl⟩
    | true =>
      dsimp only
      rcases gen with raw | e
      · dsimp only
        rcases hashf raw with hsh | e
        · dsimp only
          rcases signf hsh with cred | e
          · obtain ⟨tok⟩ := cred
            dsimp only
            cases tok with
            | none => exact Or.inr ⟨rfl, _, rfl⟩
            | some t =>
              dsimp only
              rcases exchf t raw with msg | e
              · cases msg with
                | none => exact Or.inl rfl
                | some m => exact Or.inr ⟨rfl, _, rfl⟩
              · exact Or.inr (appleCatch_failure e)
          · exact Or.inr (appleCatch_failure e)
        · exact Or.inr (appleCatch_failure e)
      · exact Or.inr (appleCatch_failure e)
  · exact Or.inr (appleCatch_failure e)

theorem googleSuccess_total (env : GoogleEnv) (u : JStr) :
    (googleSuccess env u).result.success = true ∨
      ((googleSuccess env u).result.success = false ∧
        ∃ m, (googleSuccess env u).result.error = some m) := by
  obtain ⟨oauth, browser, setf⟩ := env
  unfold googleSuccess
  rcases codeParseCallback u with ⟨a, b⟩ | d | _ | _
  · dsimp only
    rcases setf a b with msg | e
    · cases msg with
      | none => exact Or.inl rfl
      | some m => exact Or.inr ⟨rfl, _, rfl⟩
    · exact Or.inr (defaultCatch_failure e)
  · exact Or.inr ⟨rfl, _, rfl⟩
  · exact Or.inr ⟨rfl, _, rfl⟩
  · exact Or.inr (defaultCatch_failure uriMalformedError)

theorem signInWithGoogle_total (env : GoogleEnv) :
    (signInWithGoogle env).result.success = true ∨
      ((signInWithGoogle env).result.success = false ∧
        ∃ m, (signInWithGoogle env).result.error = some m) := by
  obtain ⟨oauth, browser, setf⟩ := env
  unfold signInWithGoogle
  rcases oauth with p | e
  · obtain ⟨dataUrl, errMsg⟩ := p
    dsimp only
    cases errMsg with
    | some m => exact Or.inr ⟨rfl, _, rfl⟩
    | none =>
      dsimp only
      cases dataUrl with
      | none => exact Or.inr ⟨rfl, _, rfl⟩
      | some oauthUrl =>
        dsimp only
        rcases browser oauthUrl with r | e
        · obtain ⟨ty, url⟩ := r
          dsimp only
          cases ty with
          | success =>
            cases url with
            | none => exact Or.inr ⟨rfl, _, rfl⟩
            | some u =>
              rcases eq_or_ne u [] with rfl | hu
              · exact Or.inr ⟨rfl, _, rfl⟩
              · obtain ⟨ch, cs, rfl⟩ := List.exists_cons_of_ne_nil hu
                exact googleSuccess_total ⟨Outcome.ok (some oauthUrl, none), browser, setf⟩
                  (ch :: cs)
          | cancel => cases url <;> exact Or.inr ⟨rfl, _, rfl⟩
          | dismiss => cases url <;> exact Or.inr ⟨rfl, _, rfl⟩
          | other => cases url <;> exact Or.inr ⟨rfl, _, rfl⟩
        · exact Or.inr (defaultCatch_failure e)
  · exact Or.inr (defaultCatch_failure e)

theorem signInWithGoogleToken_total (env : TokenEnv) (idToken : JStr)
    (accessToken : Option JStr) :
    (signInWithGoogleToken env idToken accessToken).success = true ∨
      ((signInWithGoogleToken env idToken accessToken).success = false ∧
        ∃ m, (signInWithGoogleToken env idToken accessToken).error = some m) := by
  unfold signInWithGoogleToken
  rcases env.signInWithIdToken idToken accessToken with msg | e
  · cases msg with
    | none => exact Or.inl rfl
    | some m => exact Or.inr ⟨rfl, _, rfl⟩
  · exact Or.inr (defaultCatch_failure e)

theorem signOut_total (env : SignOutEnv) :
    (signOut env).success = true ∨
      ((signOut env).success = false ∧ ∃ m, (signOut env).error = some m) := by
  unfold signOut
  rcases env.signOut with msg | e
  · cases msg with
    | none => exact Or.inl rfl
    | some m => exact Or.inr ⟨rfl, _, rfl⟩
  · exact Or.inr (defaultCatch_failure e)

/-- Claim C1: for every possible outcome of the collaborators,
including thrown exceptions, each public flow function — Apple
sign-in, Google sign-in, token-based Google sign-in, and sign-out —
always resolves to an AuthResult (the embedded flows are total Lean
functions), and every failure path resolves to a result whose success
flag is false and whose error carries a message string. -/
theorem claim_C1_flows_total :
    (∀ env : AppleEnv, (signInWithApple env).result.success = true ∨
      ((signInWithApple env).result.success = false ∧
        ∃ m, (signInWithApple env).result.error = some m)) ∧
    (∀ env : GoogleEnv, (signInWithGoogle env).result.success = true ∨
      ((signInWithGoogle env).result.success = false ∧
        ∃ m, (signInWithGoogle env).result.error = some m)) ∧
    (∀ (env : TokenEnv) (idToken : JStr) (accessToken : Option JStr),
      (signInWithGoogleToken env idToken accessToken).success = true ∨
        ((signInWithGoogleToken env idToken accessToken).success = false ∧
          ∃ m, (signInWithGoogleToken env idToken accessToken).error = some m)) ∧
    (∀ env : SignOutEnv, (signOut env).success = true ∨
      ((signOut env).success = false ∧ ∃ m, (signOut env).error = some m)) :=
  ⟨signInWithApple_total, signInWithGoogle_total, signInWithGoogleToken_total, signOut_total⟩

/-! ## Google flow reduction on a successful browser session -/

theorem signInWithGoogle_success (env : GoogleEnv) {oauthUrl u : JStr}
    (hoauth : env.signInWithOAuth = .ok (some oauthUrl, none))
    (hbrowser : env.openAuthSession oauthUrl = .ok ⟨.success, some u⟩) (hne : u ≠ []) :
    signInWithGoogle env = googleSuccess env u := by
  obtain ⟨ch, cs, rfl⟩ := List.exists_cons_of_ne_nil hne
  unfold signInWithGoogle
  rw [hoauth]
  dsimp only
  rw [hbrowser]
  rfl

theorem codeParse_of_searchParams {u A B : JStr}
    (hA : searchParamsGet ((jsSplit (['#']) u).getD 1 []) (("access_token").data) = some A)
    (hB : searchParamsGet ((jsSplit (['#']) u).getD 1 []) (("refresh_token").data) = some B)
    (hAne : A ≠ []) (hBne : B ≠ []) :
    codeParseCallback u = .tokens A B := by
  have hfrag : (jsSplit (['#']) u).getD 1 [] ≠ [] := by
    intro h
    rw [h] at hA
    rw [show searchParamsGet ([] : JStr) (("access_token").data) = none from rfl] at hA
    exact nomatch hA
  unfold codeParseCallback
  rw [if_pos hfrag, hA, hB]
  dsimp only
  rw [if_pos ⟨hAne, hBne⟩]

/-- Claim C2: for every successful Google browser session whose
callback URL carries a non-empty fragment from which URLSearchParams
reads access_token value A and refresh_token value B (both non-empty,
in any order and regardless of other fragment parameters), the backend
session install is invoked with exactly the pair (A, B); the flow
succeeds when the install succeeds and surfaces the backend message
when the install reports an error. -/
theorem claim_C2_google_install (env : GoogleEnv) (oauthUrl u A B : JStr)
    (hoauth : env.signInWithOAuth = .ok (some oauthUrl, none))
    (hbrowser : env.openAuthSession oauthUrl = .ok ⟨.success, some u⟩)
    (hA : searchParamsGet ((jsSplit (['#']) u).getD 1 []) (("access_token").data) = some A)
    (hB : searchParamsGet ((jsSplit (['#']) u).getD 1 []) (("refresh_token").data) = some B)
    (hAne : A ≠ []) (hBne : B ≠ []) :
    (signInWithGoogle env).setSessionCall = some (A, B) ∧
    (env.setSession A B = .ok none → (signInWithGoogle env).result = ⟨true, none⟩) ∧
    (∀ m, env.setSession A B = .ok (some m) →
      (signInWithGoogle env).result = ⟨false, some m⟩) := by
  have hparse := codeParse_of_searchParams hA hB hAne hBne
  have hne_u : u ≠ [] := by
    rintro rfl
    rw [show ((jsSplit (['#']) ([] : JStr)).getD 1 []) = ([] : JStr) from rfl] at hA
    rw [show searchParamsGet ([] : JStr) (("access_token").data) = none from rfl] at hA
    exact nomatch hA
  have hred := signInWithGoogle_success env hoauth hbrowser hne_u
  rw [hred]
  unfold googleSuccess
  rw [hparse]
  dsimp only
  refine ⟨?_, ?_, ?_⟩
  · rcases env.setSession A B with (_ | m) | e <;> rfl
  · intro hok
    rw [hok]
  · intro m hm
    rw [hm]

/-- Claim C2 witness: a concrete environment whose browser session
returns cb#access_token=a&refresh_token=b and whose install succeeds. -/
theorem claim_C2_witness :
    (signInWithGoogle googleEnvHappy).setSessionCall = some ((("a").data), (("b").data)) ∧
    (signInWithGoogle googleEnvHappy).result = ⟨true, none⟩ := by
  have h := claim_C2_google_install googleEnvHappy (("https://oauth").data)
    (tokenCallbackUrl (("cb").data) (("a").data) (("b").data)) (("a").data) (("b").data)
    rfl rfl (by decide) (by decide) (by decide) (by decide)
  exact ⟨h.1, h.2.1 rfl⟩

/-- Claim C3 counterexample: the code's extraction and the reference
split-extraction disagree on the URL cb?error_description=oops&x=1#y=2:
the code reads error_description out of the query part of the URL
(outside the fragment) and yields that error description, while the
reference algorithm, which only inspects the fragment, yields no
outcome. -/
theorem claim_C3_counterexample :
    codeParseCallback (("cb?error_description=oops&x=1#y=2").data) ≠
      specParseCallback (("cb?error_description=oops&x=1#y=2").data) ∧
    codeParseCallback (("cb?error_description=oops&x=1#y=2").data) =
      .errorDesc (("oops").data) ∧
    specParseCallback (("cb?error_description=oops&x=1#y=2").data) = .noTokens :=
  ⟨by decide, by decide, by decide⟩

/-- Claim C3 (amended): restricted to callback URLs of the literal
token form base#access_token=A&refresh_token=B — the shape the deep
link callback actually carries — in which base contains no hash sign
and A and B are non-empty and free of the characters hash, ampersand,
percent and plus, the code's extraction and the reference
split-extraction agree, both yielding the token pair (A, B). -/
theorem claim_C3_amended (base A B : JStr) (hbase : '#' ∉ base)
    (hA : plainValue A) (hB : plainValue B) (hAne : A ≠ []) (hBne : B ≠ []) :
    codeParseCallback (tokenCallbackUrl base A B) =
      specParseCallback (tokenCallbackUrl base A B) ∧
    codeParseCallback (tokenCallbackUrl base A B) = .tokens A B := by
  have h1 := codeParse_token_form hbase hA hB hAne hBne
  have h2 := specParse_token_form hbase hA hB
  exact ⟨h1.trans h2.symm, h1⟩

/-- Claim C3 witness: the amended equivalence evaluated on the concrete
URL cb#access_token=x&refresh_token=y. -/
theorem claim_C3_witness :
    codeParseCallback (tokenCallbackUrl (("cb").data) (("x").data) (("y").data)) =
      specParseCallback (tokenCallbackUrl (("cb").data) (("x").data) (("y").data)) ∧
    codeParseCallback (tokenCallbackUrl (("cb").data) (("x").data) (("y").data)) =
      .tokens (("x").data) (("y").data) :=
  claim_C3_amended (("cb").data) (("x").data) (("y").data) (by decide) (by decide) (by decide)
    (by decide) (by decide)

/-! ## Cancellation normalization -/

theorem appleCatch_cancelled (e : JsError)
    (h : (e.isError = true ∧ occursIn (("cancelled").data) e.message = true) ∨
      e.code = some (("ERR_REQUEST_CANCELED").data)) :
    appleCatch e = ⟨false, some (("Sign-in was cancelled").data)⟩ := by
  unfold appleCatch
  rcases h with h | h
  · rw [if_pos h]
  · by_cases h1 : e.isError = true ∧ occursIn (("cancelled").data) e.message = true
    · rw [if_pos h1]
    · rw [if_neg h1, if_pos h]

/-- Claim C4: user cancellation is normalized to the single uniform
cancellation failure across both providers: the Apple flow returns it
whenever the native prompt throws an Error whose message includes the
substring cancelled or any value whose code is ERR_REQUEST_CANCELED,
and the Google flow returns it whenever the browser session result has
type cancel or type dismiss. -/
theorem claim_C4_cancellation :
    (∀ (env : AppleEnv) (raw hsh : JStr) (e : JsError),
      env.isAvailable = .ok true → env.generateNonce = .ok raw →
      env.hashNonce raw = .ok hsh → env.signInAsync hsh = .exn e →
      ((e.isError = true ∧ occursIn (("cancelled").data) e.message = true) ∨
        e.code = some (("ERR_REQUEST_CANCELED").data)) →
      (signInWithApple env).result = ⟨false, some (("Sign-in was cancelled").data)⟩) ∧
    (∀ (env : GoogleEnv) (u : JStr) (r : WebBrowserResult),
      env.signInWithOAuth = .ok (some u, none) → env.openAuthSession u = .ok r →
      (r.type = .cancel ∨ r.type = .dismiss) →
      (signInWithGoogle env).result = ⟨false, some (("Sign-in was cancelled").data)⟩) := by
  constructor
  · intro env raw hsh e h1 h2 h3 h4 hc
    unfold signInWithApple
    rw [h1]
    dsimp only
    rw [h2]
    dsimp only
    rw [h3]
    dsimp only
    rw [h4]
    exact appleCatch_cancelled e hc
  · intro env u r h1 h2 hty
    obtain ⟨ty, url⟩ := r
    unfold signInWithGoogle
    rw [h1]
    dsimp only
    rw [h2]
    dsimp only
    rcases hty with rfl | rfl
    · cases url <;> rfl
    · cases url <;> rfl

/-- Claim C4 witness: the Apple flow on a native prompt throwing a
cancellation Error, and the Google flow on a cancelled browser
session. -/
theorem claim_C4_witness :
    (signInWithApple appleEnvCancelled).result =
      ⟨false, some (("Sign-in was cancelled").data)⟩ ∧
    (signInWithGoogle googleEnvCancelled).result =
      ⟨false, some (("Sign-in was cancelled").data)⟩ := by
  constructor
  · exact claim_C4_cancellation.1 appleEnvCancelled (("aa").data) (("hh").data)
      ⟨true, ("The operation was cancelled by the user").data, none⟩ rfl rfl rfl rfl
      (Or.inl ⟨rfl, by decide⟩)
  · exact claim_C4_cancellation.2 googleEnvCancelled (("https://oauth").data)
      ⟨.cancel, none⟩ rfl rfl (Or.inl rfl)

/-- Claim C5: in every execution of the Apple flow that reaches the
native credential request, the nonce argument passed to the identity
provider is the hash of the generated raw nonce, and the nonce argument
passed to the backend exchange is the raw generated value itself (the
hash being the value sent to the provider in that same execution). -/
theorem claim_C5_nonce_wiring (env : AppleEnv) :
    (∀ n, (signInWithApple env).credentialNonce = some n →
      ∃ raw, env.generateNonce = .ok raw ∧ env.hashNonce raw = .ok n) ∧
    (∀ t n, (signInWithApple env).exchangeCall = some (t, n) →
      env.generateNonce = .ok n ∧
        ∃ hsh, env.hashNonce n = .ok hsh ∧
          (signInWithApple env).credentialNonce = some hsh) := by
  obtain ⟨avail, gen, hashf, signf, exchf⟩ := env
  unfold signInWithApple
  rcases avail with b | e
  · cases b with
    | false => exact ⟨fun n hn => (nomatch hn), fun t n hn => nomatch hn⟩
    | true =>
      dsimp only
      rcases gen with raw | e
      · dsimp only
        rcases hh : hashf raw with hsh | e
        · dsimp only
          rcases signf hsh with cred | e
          · obtain ⟨tok⟩ := cred
            dsimp only
            cases tok with
            | none =>
              refine ⟨fun n hn => ?_, fun t n hn => nomatch hn⟩
              obtain rfl : hsh = n := Option.some.inj hn
              exact ⟨raw, rfl, hh⟩
            | some t0 =>
              dsimp only
              rcases exchf t0 raw with (_ | m) | e
              all_goals
                refine ⟨fun n hn => ?_, fun t n hn => ?_⟩
                · obtain rfl : hsh = n := Option.some.inj hn
                  exact ⟨raw, rfl, hh⟩
                · have h2 := Option.some.inj hn
                  obtain ⟨rfl, rfl⟩ : t0 = t ∧ raw = n :=
                    ⟨congrArg Prod.fst h2, congrArg Prod.snd h2⟩
                  exact ⟨rfl, hsh, hh, rfl⟩
          · refine ⟨fun n hn => ?_, fun t n hn => nomatch hn⟩
            obtain rfl : hsh = n := Option.some.inj hn
            exact ⟨raw, rfl, hh⟩
        · exact ⟨fun n hn => (nomatch hn), fun t n hn => nomatch hn⟩
      · exact ⟨fun n hn => (nomatch hn), fun t n hn => nomatch hn⟩
  · exact ⟨fun n hn => (nomatch hn), fun t n hn => nomatch hn⟩

/-- Claim C5 witness: on a completing Apple environment the credential
prompt received the hash of the generated raw nonce. -/
theorem claim_C5_witness :
    ∃ raw, appleEnvHappy.generateNonce = .ok raw ∧
      appleEnvHappy.hashNonce raw = .ok (("hh").data) :=
  (claim_C5_nonce_wiring appleEnvHappy).1 (("hh").data) rfl

/-! ## Store and routing-gate claims -/

/-- Claim C6: after initialize resolves, isLoading is false in every
case; when the initial session fetch succeeded the snapshot holds the
fetched session, its user projection and isAuthenticated equal to the
presence of the session; when the fetch threw, the failure is caught
and only isLoading changes, so a store still in its unauthenticated
default stays there (the embedding is a total function, so no error
propagates). -/
theorem claim_C6_store_init (env : InitEnv) (s : AuthState) :
    (initializeAuth env s).isLoading = false ∧
    (∀ sess, env.getSession = .ok sess →
      initializeAuth env s =
        { session := sess, user := sessionUser sess, isLoading := false,
          isAuthenticated := sess.isSome }) ∧
    (∀ e, env.getSession = .exn e →
      initializeAuth env s = { s with isLoading := false }) := by
  obtain ⟨g⟩ := env
  unfold initializeAuth
  rcases g with sess | e
  · exact ⟨rfl, fun sess2 h => ((by cases h; rfl)), fun e2 h => nomatch h⟩
  · exact ⟨rfl, fun sess2 h => (nomatch h), fun e2 h => (by cases h; rfl)⟩

/-- Claim C6 witness: initialize on a fetch that returns no session,
from the default snapshot. -/
theorem claim_C6_witness :
    initializeAuth ⟨Outcome.ok none⟩ initialState = ⟨none, none, false, false⟩ ∧
    initializeAuth ⟨Outcome.exn ⟨true, [], none⟩⟩ initialState =
      { initialState with isLoading := false } := by
  constructor
  · exact ((claim_C6_store_init ⟨Outcome.ok none⟩ initialState).2.1 none rfl).trans (by decide)
  · exact (claim_C6_store_init ⟨Outcome.exn ⟨true, [], none⟩⟩ initialState).2.2 ⟨true, [], none⟩ rfl

/-- Claim C7: the routing gate issues no navigation while loading;
when not authenticated and not in the auth group (in particular in the
protected group) it issues exactly one navigation to the login screen;
when authenticated and in the auth group it issues exactly one
navigation to the protected entry; in every other state it issues
none. -/
theorem claim_C7_routing_gate (isAuth isLoading : Bool) (segments : List JStr) :
    (isLoading = true → useProtectedRoute isAuth isLoading segments = []) ∧
    (isLoading = false → isAuth = false → segments.head? ≠ some (("(auth)").data) →
      useProtectedRoute isAuth isLoading segments = [("/(auth)/login").data]) ∧
    (isLoading = false → isAuth = true → segments.head? = some (("(auth)").data) →
      useProtectedRoute isAuth isLoading segments = [("/(protected)").data]) ∧
    (isLoading = false →
      ((isAuth = true ∧ segments.head? ≠ some (("(auth)").data)) ∨
        (isAuth = false ∧ segments.head? = some (("(auth)").data))) →
      useProtectedRoute isAuth isLoading segments = []) := by
  refine ⟨?_, ?_, ?_, ?_⟩
  · intro h
    subst h
    rfl
  · intro hl ha hh
    subst hl
    subst ha
    unfold useProtectedRoute
    rw [if_neg (by simp), if_pos ⟨rfl, hh⟩]
  · intro hl ha hh
    subst hl
    subst ha
    unfold useProtectedRoute
    rw [if_neg (by simp), if_neg (fun hcon => by cases hcon.1), if_pos ⟨rfl, hh⟩]
  · intro hl hcase
    subst hl
    unfold useProtectedRoute
    rcases hcase with ⟨ha, hh⟩ | ⟨ha, hh⟩
    · subst ha
      rw [if_neg (by simp), if_neg (fun hcon => by cases hcon.1),
        if_neg (fun hcon => hh hcon.2), if_neg (fun hcon => by cases hcon.1)]
    · subst ha
      rw [if_neg (by simp), if_neg (fun hcon => hcon.2 hh),
        if_neg (fun hcon => by cases hcon.1),
        if_neg (fun hcon => absurd (hh.symm.trans hcon.2) (by decide))]

/-- Claim C7 witness: an unauthenticated user in the protected group is
sent to the login screen once, and nothing fires while loading. -/
theorem claim_C7_witness :
    useProtectedRoute false false [(("(protected)").data)] = [("/(auth)/login").data] ∧
    useProtectedRoute false true [(("(protected)").data)] = [] := by
  constructor
  · exact (claim_C7_routing_gate false false [(("(protected)").data)]).2.1 rfl rfl (by decide)
  · exact (claim_C7_routing_gate false true [(("(protected)").data)]).1 rfl

/-- Claim C8: clearAuth resets the snapshot to the unauthenticated
default regardless of prior state: session and user become null and
isAuthenticated becomes false. -/
theorem claim_C8_clearAuth (s : AuthState) :
    (clearAuth s).session = none ∧ (clearAuth s).user = none ∧
      (clearAuth s).isAuthenticated = false :=
  ⟨rfl, rfl, rfl⟩

/-- Claim C9: whenever the native Apple capability check returns false,
the Apple flow resolves to the unavailable-device failure without
invoking the native credential request or the backend exchange. -/
theorem claim_C9_apple_unavailable (env : AppleEnv) (h : env.isAvailable = .ok false) :
    signInWithApple env =
      ⟨none, none,
        ⟨false, some (("Apple Sign-In is not available on this device").data)⟩⟩ := by
  unfold signInWithApple
  rw [h]

/-- Claim C9 witness: the Apple flow on a device whose capability check
returns false. -/
theorem claim_C9_witness :
    signInWithApple appleEnvUnavailable =
      ⟨none, none,
        ⟨false, some (("Apple Sign-In is not available on this device").data)⟩⟩ :=
  claim_C9_apple_unavailable appleEnvUnavailable rfl

/-- Claim C10: every store mutation — initialize on both paths, the
session-change subscription callback, setSession and clearAuth —
preserves the snapshot consistency invariant: isAuthenticated reflects
the presence of a session and user is exactly the current session's
user; the initial snapshot satisfies it as well. -/
theorem claim_C10_store_invariant :
    authInvariant initialState ∧
    (∀ (env : InitEnv) (s : AuthState), authInvariant s →
      authInvariant (initializeAuth env s)) ∧
    (∀ (sess : Option Session) (s : AuthState), authInvariant (onAuthStateChange sess s)) ∧
    (∀ (sess : Option Session) (s : AuthState), authInvariant (setSession sess s)) ∧
    (∀ s : AuthState, authInvariant (clearAuth s)) := by
  refine ⟨⟨rfl, rfl⟩, ?_, ?_, ?_, ?_⟩
  · intro env s hs
    obtain ⟨g⟩ := env
    unfold initializeAuth
    rcases g with sess | e
    · exact ⟨rfl, rfl⟩
    · exact hs
  · intro sess s
    exact ⟨rfl, rfl⟩
  · intro sess s
    exact ⟨rfl, rfl⟩
  · intro s
    exact ⟨rfl, rfl⟩

/-- Claim C10 witness: the invariant is preserved by initialize from
the default snapshot when the fetch throws. -/
theorem claim_C10_witness :
    authInvariant (initializeAuth ⟨Outcome.exn ⟨true, [], none⟩⟩ initialState) :=
  claim_C10_store_invariant.2.1 ⟨Outcome.exn ⟨true, [], none⟩⟩ initialState ⟨rfl, rfl⟩

end Planor
